import Mathlib

/-!
Verification of the BIO span decoder and prediction-output serialization in
`slm/model_zoo/ernie-3.0/run_token_cls.py` (the `do_predict` block of `main`).

The decoder is a single left-to-right scan over one example's predicted label
indices, holding a mutable cursor `start` (sentinel `-1`) and the current
entity type `label_name`, emitting entity spans. We embed it shallowly:
Python lists become `List`, Python `int` becomes `Int` where the sentinel
`-1` matters, Python slices become `pySlice` (full Python slice semantics,
including negative indices), and the Python substring test `"B-" in s`
becomes `strContains`.
-/

/-- Python's list-membership substring scan on character lists:
`subMatch pat l` is true iff `pat` occurs as a contiguous sublist of `l`
(this is the semantics of Python's `pat in s` for strings). -/
def subMatch : List Char → List Char → Bool
  | pat, [] => pat.isEmpty
  | pat, c :: rest => pat.isPrefixOf (c :: rest) || subMatch pat rest

/-- Python `pat in s` for strings: `pat` occurs as a substring of `s`. -/
def strContains (s pat : String) : Bool :=
  subMatch pat.data s.data

/-- Python slice `l[a:b]` with full Python semantics: a negative bound counts
from the end, and both bounds are clamped to `[0, len l]`. -/
def pySlice (l : List String) (a b : Int) : List String :=
  let n : Int := l.length
  let a' : Int := if a < 0 then max 0 (n + a) else min a n
  let b' : Int := if b < 0 then max 0 (n + b) else min b n
  (l.drop a'.toNat).take (b'.toNat - a'.toNat)

/-- The `entity` field of an emitted span. Python is dynamically typed: the
mid-scan close branch runs `"".join(entity)` (its `isinstance(entity, list)`
guard always holds, a list slice being a list), producing a `str`, while the
trailing-span branch stores the raw list slice unjoined. -/
inductive EntityText where
  | str : String → EntityText
  | lst : List String → EntityText
deriving DecidableEq, Repr

/-- Whether an `entity` field is a plain string (vs. an unjoined token list). -/
def EntityText.isStr : EntityText → Bool
  | .str _ => true
  | .lst _ => false

/-- One emitted span: the dict `{"pos": [start, end], "entity": ..., "label": ...}`
appended to `items` in the source. `pos` is kept as a pair of `Int`s, exactly
the Python ints the code stores. -/
structure EntitySpan where
  pos : Int × Int
  entity : EntityText
  label : String
deriving DecidableEq, Repr

/-- The loop state of the scan: the open-span cursor `start` (sentinel `-1`),
the most recently recorded type `label_name`, and the accumulated `items`. -/
structure DecState where
  start : Int
  label_name : String
  items : List EntitySpan
deriving DecidableEq, Repr

/-- One iteration of the scan (`for i, label in enumerate(token_label)`), for
index `i` and label index `l`:

    if (label_list[label] == "O" or "B-" in label_list[label]) and start >= 0:
        entity = input_data[start : i - 1]
        if isinstance(entity, list):
            entity = "".join(entity)
        items.append({"pos": [start, i - 2], "entity": entity, "label": label_name})
        start = -1
    if "B-" in label_list[label]:
        start = i - 1
        label_name = label_list[label][2:]
-/
def stepDecode (labelScheme tokens : List String) (s : DecState) (i l : Nat) :
    DecState :=
  let label := labelScheme.getD l ""
  let s1 :=
    if (label = "O" ∨ strContains label "B-" = true) ∧ 0 ≤ s.start then
      { start := -1
        label_name := s.label_name
        items := s.items ++
          [{ pos := (s.start, (i : Int) - 2)
             entity := EntityText.str (String.join (pySlice tokens s.start ((i : Int) - 1)))
             label := s.label_name }] }
    else s
  if strContains label "B-" = true then
    { s1 with start := (i : Int) - 1, label_name := label.drop 2 }
  else s1

/-- The scan loop, threading the state through `labels` starting at index `i`. -/
def decodeLoop (labelScheme tokens : List String) : DecState → Nat → List Nat → DecState
  | s, _, [] => s
  | s, i, l :: ls => decodeLoop labelScheme tokens (stepDecode labelScheme tokens s i l) (i + 1) ls

/-- The per-example decoder: run the scan from the initial state
`start = -1, label_name = "", items = []`, then the trailing check

    if start >= 0:
        items.append({"pos": [start, len(token_label) - 1],
                      "entity": input_data[start : len(token_label) - 1],
                      "label": ""})

(note: the trailing entity is the raw list slice, never joined). -/
def decode (labelScheme tokens : List String) (labels : List Nat) : List EntitySpan :=
  let n : Int := labels.length
  let fin := decodeLoop labelScheme tokens ⟨-1, "", []⟩ 0 labels
  if 0 ≤ fin.start then
    fin.items ++
      [{ pos := (fin.start, n - 1)
         entity := EntityText.lst (pySlice tokens fin.start (n - 1))
         label := "" }]
  else fin.items

/-- Python `os.path.join(a, b)` restricted to one relative component `b`
(the script always joins with the fixed relative name "test_results.json"):
an absolute `b` replaces `a`; otherwise a separator is inserted unless `a`
is empty or already ends with one. -/
def osPathJoin (a b : String) : String :=
  if ['/'].isPrefixOf b.data then b
  else if a = "" ∨ ['/'].isSuffixOf a.data then a ++ b
  else a ++ "/" ++ b

/-- The serialization call made by the predict block:

    out_file = open(os.path.join(training_args.output_dir, "test_results.json"), "w")
    json.dump(out_dict, out_file, ensure_ascii=True)

captured as the destination path and the `ensure_ascii` flag passed to
`json.dump`. -/
structure JsonDumpCall where
  path : String
  ensureAscii : Bool
deriving DecidableEq, Repr

/-- The concrete serialization call in the source (note `ensure_ascii=True`). -/
def writeTestResults (output_dir : String) : JsonDumpCall :=
  { path := osPathJoin output_dir "test_results.json", ensureAscii := true }

/-- Lower-case hexadecimal digit, for `n < 16`. -/
def hexDigitChar (n : Nat) : Char :=
  if n < 10 then Char.ofNat (48 + n) else Char.ofNat (87 + n)

/-- A JSON `\uXXXX` escape (four lower-case hex digits), as produced by
CPython's `"\\u%04x" % n` for `n < 0x10000`. -/
def uEscape (n : Nat) : String :=
  String.mk ['\\', 'u', hexDigitChar (n / 4096 % 16), hexDigitChar (n / 256 % 16),
    hexDigitChar (n / 16 % 16), hexDigitChar (n % 16)]

/-- Per-character escaping of CPython's `json.encoder.py_encode_basestring_ascii`,
which `json.dump` applies to every string value when `ensure_ascii=True`:
backslash, quote and the five short escapes are mapped to two-character
escapes, printable ASCII (0x20–0x7e) passes through, and everything else —
in particular every non-ASCII character — becomes `\uXXXX` (a surrogate
pair for code points above 0xFFFF). -/
def escapeAsciiChar (c : Char) : String :=
  if c = '\\' then "\\\\"
  else if c = '"' then "\\\""
  else if c = Char.ofNat 8 then "\\b"
  else if c = Char.ofNat 12 then "\\f"
  else if c = '\n' then "\\n"
  else if c = '\r' then "\\r"
  else if c = '\t' then "\\t"
  else if 32 ≤ c.toNat ∧ c.toNat ≤ 126 then String.singleton c
  else if c.toNat < 65536 then uEscape c.toNat
  else
    uEscape (55296 + (c.toNat - 65536) / 1024) ++ uEscape (56320 + (c.toNat - 65536) % 1024)

/-- CPython's `py_encode_basestring_ascii`: quote, escape each character,
quote. This is the encoding of a string value in the written JSON document
when `ensure_ascii=True`. -/
def encodeBasestringAscii (s : String) : String :=
  "\"" ++ (s.data.map escapeAsciiChar).foldl (fun a b => a ++ b) "" ++ "\""

/-- Invariant of the scan, holding before the iteration at index `i`:
the accumulated items are strictly increasing in start position and bounded
by `i - 2`, an open cursor is at most `i - 2` and strictly above every
emitted start, and every emitted (mid-scan) item's entity is the joined
token slice over its inclusive `pos` range. -/
def ScanInv (tokens : List String) (s : DecState) (i : Nat) : Prop :=
  s.items.Pairwise (fun a b => a.pos.1 < b.pos.1) ∧
  (∀ e ∈ s.items, e.pos.1 ≤ (i : Int) - 2) ∧
  (0 ≤ s.start → s.start ≤ (i : Int) - 2 ∧ ∀ e ∈ s.items, e.pos.1 < s.start) ∧
  (∀ e ∈ s.items,
    e.entity = EntityText.str (String.join (pySlice tokens e.pos.1 (e.pos.2 + 1))))

/-! ### Helper lemmas -/

/-- A string with literal prefix "B-" contains "B-" as a substring. -/
theorem strContains_B_append (t : String) : strContains ("B-" ++ t) "B-" = true := by
  have hd : ("B-" ++ t).data = 'B' :: '-' :: t.data := by
    rw [String.data_append]; rfl
  rw [strContains, hd]
  simp [subMatch, List.isPrefixOf]

/-- A string with literal prefix "I-" is not the label "O". -/
theorem I_append_ne_O (t : String) : "I-" ++ t ≠ "O" := by
  intro h
  have h2 := congrArg String.length h
  rw [String.length_append] at h2
  have hi : ("I-" : String).length = 2 := by decide
  have ho : ("O" : String).length = 1 := by decide
  omega

/-- An iteration whose label does not contain "B-" and which cannot close
(either the label is not "O", or no span is open) leaves the state unchanged. -/
theorem stepDecode_no_action (labelScheme tokens : List String) (s : DecState) (i l : Nat)
    (hB : strContains (labelScheme.getD l "") "B-" = false)
    (h : labelScheme.getD l "" ≠ "O" ∨ s.start < 0) :
    stepDecode labelScheme tokens s i l = s := by
  have hnb : ¬ strContains (labelScheme.getD l "") "B-" = true := by
    rw [hB]; exact Bool.false_ne_true
  have hna : ¬ ((labelScheme.getD l "" = "O" ∨ strContains (labelScheme.getD l "") "B-" = true)
      ∧ 0 ≤ s.start) := by
    rintro ⟨h1 | h2, hs⟩
    · rcases h with h3 | h3
      · exact h3 h1
      · omega
    · exact hnb h2
  simp only [stepDecode]
  rw [if_neg hna, if_neg hnb]

/-- After an iteration whose label contains "B-", the cursor is `i - 1` and
the recorded type is the label with its first two characters dropped. -/
theorem stepDecode_open_aux (labelScheme tokens : List String) (s : DecState) (i l : Nat)
    (hc : strContains (labelScheme.getD l "") "B-" = true) :
    (stepDecode labelScheme tokens s i l).start = (i : Int) - 1 ∧
    (stepDecode labelScheme tokens s i l).label_name = (labelScheme.getD l "").drop 2 := by
  simp only [stepDecode]
  rw [if_pos hc]
  exact ⟨rfl, rfl⟩

/-- An iteration that fires the close branch appends exactly the span
`{pos := (start, i - 2), entity := joined slice, label := label_name}`. -/
theorem stepDecode_close_aux (labelScheme tokens : List String) (s : DecState) (i l : Nat)
    (hO : labelScheme.getD l "" = "O" ∨ strContains (labelScheme.getD l "") "B-" = true)
    (hs : 0 ≤ s.start) :
    (stepDecode labelScheme tokens s i l).items =
      s.items ++
        [{ pos := (s.start, (i : Int) - 2)
           entity := EntityText.str (String.join (pySlice tokens s.start ((i : Int) - 1)))
           label := s.label_name }] := by
  simp only [stepDecode]
  rw [if_pos (show (labelScheme.getD l "" = "O" ∨ strContains (labelScheme.getD l "") "B-" = true)
    ∧ 0 ≤ s.start from ⟨hO, hs⟩)]
  by_cases hc : strContains (labelScheme.getD l "") "B-" = true
  · rw [if_pos hc]
  · rw [if_neg hc]

/-- The scan over `ls ++ [l]` is the scan over `ls` followed by one step at
index `i + ls.length`. -/
theorem decodeLoop_append_eq (labelScheme tokens : List String) (ls : List Nat) (l : Nat)
    (s : DecState) (i : Nat) :
    decodeLoop labelScheme tokens s i (ls ++ [l]) =
      stepDecode labelScheme tokens (decodeLoop labelScheme tokens s i ls) (i + ls.length) l := by
  induction ls generalizing s i with
  | nil => simp [decodeLoop]
  | cons x xs ih =>
    have hlen : i + 1 + xs.length = i + (x :: xs).length := by
      simp only [List.length_cons]
      omega
    rw [List.cons_append, decodeLoop, ih, hlen]
    conv_rhs => rw [decodeLoop]

/-- With a closed cursor and no "B-" label ahead, the scan never changes the
state. -/
theorem decodeLoop_frozen (labelScheme tokens : List String) (ls : List Nat)
    (s : DecState) (i : Nat) (hs : s.start < 0)
    (hB : ∀ l ∈ ls, strContains (labelScheme.getD l "") "B-" = false) :
    decodeLoop labelScheme tokens s i ls = s := by
  induction ls generalizing i with
  | nil => rfl
  | cons l ls ih =>
    rw [decodeLoop, stepDecode_no_action labelScheme tokens s i l (hB l (by simp))
      (Or.inr hs)]
    exact ih (i + 1) (fun x hx => hB x (by simp [hx]))

/-- The items of a step that cannot close (no span open) are unchanged. -/
theorem stepDecode_items_no_close (labelScheme tokens : List String) (s : DecState) (i l : Nat)
    (hs : ¬ 0 ≤ s.start) :
    (stepDecode labelScheme tokens s i l).items = s.items := by
  simp only [stepDecode]
  have hna : ¬ ((labelScheme.getD l "" = "O" ∨ strContains (labelScheme.getD l "") "B-" = true)
      ∧ 0 ≤ s.start) := fun hcl => hs hcl.2
  by_cases hc : strContains (labelScheme.getD l "") "B-" = true
  · rw [if_pos hc, if_neg hna]
  · rw [if_neg hc, if_neg hna]

/-- Unfolding of `decode` through the scan and the trailing check. -/
theorem decode_eq (labelScheme tokens : List String) (labels : List Nat) :
    decode labelScheme tokens labels =
      if 0 ≤ (decodeLoop labelScheme tokens ⟨-1, "", []⟩ 0 labels).start then
        (decodeLoop labelScheme tokens ⟨-1, "", []⟩ 0 labels).items ++
          [{ pos := ((decodeLoop labelScheme tokens ⟨-1, "", []⟩ 0 labels).start,
               (labels.length : Int) - 1)
             entity := EntityText.lst (pySlice tokens
               (decodeLoop labelScheme tokens ⟨-1, "", []⟩ 0 labels).start
               ((labels.length : Int) - 1))
             label := "" }]
      else (decodeLoop labelScheme tokens ⟨-1, "", []⟩ 0 labels).items := rfl

/-- The scan invariant holds at the initial state. -/
theorem scanInv_init (tokens : List String) : ScanInv tokens ⟨-1, "", []⟩ 0 := by
  refine ⟨List.Pairwise.nil, ?_, ?_, ?_⟩
  · intro e he
    simp at he
  · intro h0
    exact absurd h0 (by decide)
  · intro e he
    simp at he

/-- One step of the scan preserves the invariant. -/
theorem stepDecode_scanInv (labelScheme tokens : List String) (s : DecState) (i l : Nat)
    (h : ScanInv tokens s i) : ScanInv tokens (stepDecode labelScheme tokens s i l) (i + 1) := by
  obtain ⟨hpw, hbd, hcur, hent⟩ := h
  have hent2 : ((i : Int) - 2) + 1 = (i : Int) - 1 := by ring
  simp only [stepDecode]
  by_cases hcl : (labelScheme.getD l "" = "O" ∨ strContains (labelScheme.getD l "") "B-" = true)
      ∧ 0 ≤ s.start
  · obtain ⟨hst, hlt⟩ := hcur hcl.2
    rw [if_pos hcl]
    by_cases hc : strContains (labelScheme.getD l "") "B-" = true
    · rw [if_pos hc]
      refine ⟨?_, ?_, ?_, ?_⟩
      · rw [List.pairwise_append]
        refine ⟨hpw, List.pairwise_singleton _ _, ?_⟩
        intro a ha b hb
        rw [List.mem_singleton] at hb
        subst hb
        exact hlt a ha
      · intro e he
        rw [List.mem_append, List.mem_singleton] at he
        rcases he with he | he
        · have := hbd e he
          omega
        · subst he
          simp only []
          omega
      · intro _
        refine ⟨by push_cast; omega, ?_⟩
        intro e he
        rw [List.mem_append, List.mem_singleton] at he
        rcases he with he | he
        · have := hlt e he
          simp only []
          omega
        · subst he
          simp only []
          omega
      · intro e he
        rw [List.mem_append, List.mem_singleton] at he
        rcases he with he | he
        · exact hent e he
        · subst he
          simp only [hent2]
    · rw [if_neg hc]
      refine ⟨?_, ?_, ?_, ?_⟩
      · rw [List.pairwise_append]
        refine ⟨hpw, List.pairwise_singleton _ _, ?_⟩
        intro a ha b hb
        rw [List.mem_singleton] at hb
        subst hb
        exact hlt a ha
      · intro e he
        rw [List.mem_append, List.mem_singleton] at he
        rcases he with he | he
        · have := hbd e he
          omega
        · subst he
          simp only []
          omega
      · intro h0
        exfalso
        simp only [] at h0
        omega
      · intro e he
        rw [List.mem_append, List.mem_singleton] at he
        rcases he with he | he
        · exact hent e he
        · subst he
          simp only [hent2]
  · rw [if_neg hcl]
    by_cases hc : strContains (labelScheme.getD l "") "B-" = true
    · rw [if_pos hc]
      refine ⟨hpw, ?_, ?_, hent⟩
      · intro e he
        have := hbd e he
        omega
      · intro _
        refine ⟨by push_cast; omega, ?_⟩
        intro e he
        have := hbd e he
        simp only []
        omega
    · rw [if_neg hc]
      refine ⟨hpw, ?_, ?_, hent⟩
      · intro e he
        have := hbd e he
        omega
      · intro h0
        obtain ⟨h1, h2⟩ := hcur h0
        refine ⟨by omega, fun e he => h2 e he⟩

/-- The whole scan preserves the invariant. -/
theorem decodeLoop_scanInv (labelScheme tokens : List String) (ls : List Nat)
    (s : DecState) (i : Nat) (h : ScanInv tokens s i) :
    ScanInv tokens (decodeLoop labelScheme tokens s i ls) (i + ls.length) := by
  induction ls generalizing s i with
  | nil => simpa using h
  | cons l ls ih =>
    rw [decodeLoop]
    have h2 := ih (stepDecode labelScheme tokens s i l) (i + 1)
      (stepDecode_scanInv labelScheme tokens s i l h)
    have hlen : i + 1 + ls.length = i + (l :: ls).length := by
      simp only [List.length_cons]
      omega
    rwa [hlen] at h2

/-- Hex digits are ASCII. -/
theorem hexDigitChar_ascii (n : Nat) (h : n < 16) : (hexDigitChar n).toNat < 128 := by
  interval_cases n <;> decide

/-- Every character of a `\uXXXX` escape is ASCII. -/
theorem uEscape_ascii (n : Nat) : ∀ c ∈ (uEscape n).data, c.toNat < 128 := by
  intro c hc
  have h1 := hexDigitChar_ascii (n / 4096 % 16) (Nat.mod_lt _ (by norm_num))
  have h2 := hexDigitChar_ascii (n / 256 % 16) (Nat.mod_lt _ (by norm_num))
  have h3 := hexDigitChar_ascii (n / 16 % 16) (Nat.mod_lt _ (by norm_num))
  have h4 := hexDigitChar_ascii (n % 16) (Nat.mod_lt _ (by norm_num))
  rw [uEscape] at hc
  simp only [List.mem_cons, List.not_mem_nil, or_false] at hc
  rcases hc with h | h | h | h | h | h <;> subst h <;> first | decide | assumption

/-- A string whose characters all test ASCII by evaluation has only ASCII
characters. -/
theorem mem_data_ascii (lit : String)
    (hall : lit.data.all (fun x => decide (x.toNat < 128)) = true) :
    ∀ d ∈ lit.data, d.toNat < 128 := by
  intro d hd
  have h := List.all_eq_true.mp hall d hd
  simpa using h

/-- Every character an `ensure_ascii` escape produces is ASCII. -/
theorem escapeAsciiChar_ascii (c : Char) : ∀ d ∈ (escapeAsciiChar c).data, d.toNat < 128 := by
  intro d hd
  rw [escapeAsciiChar] at hd
  repeat' split at hd
  all_goals
    first
      | exact mem_data_ascii _ (by decide) d hd
      | exact uEscape_ascii _ d hd
      | (rw [String.data_append] at hd
         rcases List.mem_append.mp hd with h | h
         · exact uEscape_ascii _ d h
         · exact uEscape_ascii _ d h)
      | (have hd2 : d ∈ ([c] : List Char) := hd
         rw [List.mem_singleton] at hd2
         subst hd2
         omega)

/-- Folding string concatenation over ASCII-only pieces stays ASCII-only. -/
theorem foldl_append_ascii (l : List String) (acc : String)
    (hacc : ∀ c ∈ acc.data, c.toNat < 128)
    (hl : ∀ s ∈ l, ∀ c ∈ s.data, c.toNat < 128) :
    ∀ c ∈ (l.foldl (fun a b => a ++ b) acc).data, c.toNat < 128 := by
  induction l generalizing acc with
  | nil => simpa using hacc
  | cons x xs ih =>
    rw [List.foldl_cons]
    apply ih
    · intro c hc
      rw [String.data_append] at hc
      rcases List.mem_append.mp hc with h | h
      · exact hacc c h
      · exact hl x (by simp) c h
    · intro s hs
      exact hl s (by simp [hs])

/-- With `ensure_ascii=True`, every character of an encoded string value is
ASCII: non-ASCII input is escaped, never written through. -/
theorem encodeBasestringAscii_ascii (s : String) :
    ∀ c ∈ (encodeBasestringAscii s).data, c.toNat < 128 := by
  intro c hc
  rw [encodeBasestringAscii] at hc
  rw [String.data_append, String.data_append] at hc
  rcases List.mem_append.mp hc with h | h
  · rcases List.mem_append.mp h with h2 | h2
    · fin_cases h2
      decide
    · refine foldl_append_ascii _ _ ?_ ?_ c h2
      · intro x hx
        simp at hx
      · intro t ht
        rcases List.mem_map.mp ht with ⟨d, hd, rfl⟩
        exact escapeAsciiChar_ascii d
  · fin_cases h
    decide

/-! ### Claims -/

/-- C1 counterexample: on the worked example
`labelScheme = ["O","B-PER","I-PER"]`, `tokens = "john smith"` split into
characters, `labels = [1,2,2,2,0,1,2,2,2,2]`, the decoder does NOT return
the two claimed spans `{pos:[0,2], "john", "PER"}` and
`{pos:[5,9], "smith", ""}`. -/
theorem C1_counterexample :
    decode ["O", "B-PER", "I-PER"]
      ["j", "o", "h", "n", " ", "s", "m", "i", "t", "h"]
      [1, 2, 2, 2, 0, 1, 2, 2, 2, 2] ≠
      [⟨(0, 2), EntityText.str "john", "PER"⟩,
       ⟨(5, 9), EntityText.str "smith", ""⟩] := by decide

/-- C1 (amended): on that input the decoder returns exactly one span,
`{pos:[4,9], entity: the unjoined token list [" ","s","m","i","t"],
label: ""}` — the opening "B-PER" at position 0 sets the cursor to the
sentinel -1 so the "john" span is lost, and the trailing span keeps its
entity as a raw list covering only up to index 8. -/
theorem C1_amended_output :
    decode ["O", "B-PER", "I-PER"]
      ["j", "o", "h", "n", " ", "s", "m", "i", "t", "h"]
      [1, 2, 2, 2, 0, 1, 2, 2, 2, 2] =
      [⟨(4, 9), EntityText.lst [" ", "s", "m", "i", "t"], ""⟩] := by decide

/-- C2 counterexample: at position i = 1 with the label "B-PER" (which
begins with the prefix "B-"), the decoder sets the open-span cursor to 0,
not to the current position 1. -/
theorem C2_counterexample :
    ("B-PER" = "B-" ++ "PER") ∧
    (stepDecode ["O", "B-PER"] ["a", "b"] ⟨-1, "", []⟩ 1 1).start ≠ 1 := by
  exact ⟨rfl, by decide⟩

/-- C2 (amended): when the label at position i begins with the prefix "B-",
the decoder opens a new span by setting the cursor to i - 1 (not i), and
records the current type as that label with its first two characters
removed. -/
theorem C2_open_cursor (labelScheme tokens : List String) (s : DecState) (i l : Nat)
    (t : String) (h : labelScheme.getD l "" = "B-" ++ t) :
    (stepDecode labelScheme tokens s i l).start = (i : Int) - 1 ∧
    (stepDecode labelScheme tokens s i l).label_name = (labelScheme.getD l "").drop 2 := by
  apply stepDecode_open_aux
  rw [h]
  exact strContains_B_append t

/-- C2 witness: the amended claim at scheme ["O","B-PER"], position 1. -/
theorem C2_open_cursor_witness :
    (stepDecode ["O", "B-PER"] ["a", "b"] ⟨-1, "", []⟩ 1 1).start = (1 : Int) - 1 ∧
    (stepDecode ["O", "B-PER"] ["a", "b"] ⟨-1, "", []⟩ 1 1).label_name =
      ((["O", "B-PER"] : List String).getD 1 "").drop 2 :=
  C2_open_cursor ["O", "B-PER"] ["a", "b"] ⟨-1, "", []⟩ 1 1 "PER" (by decide)

/-- C3: whenever a span is closed during the scan at position i (the label
is "O" or begins with "B-" while a span is open), the emitted span's end
index pos[1] equals i - 2 (and the span is appended to the items). -/
theorem C3_close_end_index (labelScheme tokens : List String) (s : DecState) (i l : Nat)
    (hO : labelScheme.getD l "" = "O" ∨ ∃ t, labelScheme.getD l "" = "B-" ++ t)
    (hs : 0 ≤ s.start) :
    (stepDecode labelScheme tokens s i l).items =
      s.items ++
        [{ pos := (s.start, (i : Int) - 2)
           entity := EntityText.str (String.join (pySlice tokens s.start ((i : Int) - 1)))
           label := s.label_name }] := by
  apply stepDecode_close_aux
  · rcases hO with h | ⟨t, h⟩
    · exact Or.inl h
    · right
      rw [h]
      exact strContains_B_append t
  · exact hs

/-- C3 witness: closing at position 3 on an "O" label with an open span at
start = 1 emits a span ending at 3 - 2 = 1. -/
theorem C3_close_end_index_witness :
    (stepDecode ["O", "B-PER"] ["a", "b", "c"] ⟨1, "PER", []⟩ 3 0).items =
      [⟨(1, 1), EntityText.str "b", "PER"⟩] := by
  have h := C3_close_end_index ["O", "B-PER"] ["a", "b", "c"] ⟨1, "PER", []⟩ 3 0
    (Or.inl rfl) (by decide)
  rw [h]
  decide

/-- C4 counterexample: the one-element label sequence ["B-PER"] ends on a
"B-" tag, yet the decoder emits no span at all — the open at position 0
sets the cursor to 0 - 1 = -1, the sentinel, so no trailing span covering
the final index is emitted. -/
theorem C4_counterexample :
    ("B-PER" = "B-" ++ "PER") ∧
    decode ["O", "B-PER"] ["a"] [1] = [] := by
  exact ⟨rfl, by decide⟩

/-- C4 (amended): for a label sequence of length n ≥ 2 ending on a "B-"
tag, the decoder's output ends with one trailing unterminated span whose
pos is [n-2, n-1] (not [n-1, n-1]), with empty label; a length-1 sequence
ending on "B-" emits no trailing span at all. -/
theorem C4_trailing_span (labelScheme tokens : List String) (ls : List Nat) (llast : Nat)
    (t : String) (hlen : 1 ≤ ls.length)
    (h : labelScheme.getD llast "" = "B-" ++ t) :
    (decode labelScheme tokens (ls ++ [llast])).getLast? =
      some { pos := (((ls ++ [llast]).length : Int) - 2, ((ls ++ [llast]).length : Int) - 1)
             entity := EntityText.lst (pySlice tokens (((ls ++ [llast]).length : Int) - 2)
               (((ls ++ [llast]).length : Int) - 1))
             label := "" } := by
  have hc : strContains (labelScheme.getD llast "") "B-" = true := by
    rw [h]
    exact strContains_B_append t
  have hstart := (stepDecode_open_aux labelScheme tokens
    (decodeLoop labelScheme tokens ⟨-1, "", []⟩ 0 ls) (0 + ls.length) llast hc).1
  have hn : (((ls ++ [llast]).length : Nat) : Int) = (ls.length : Int) + 1 := by
    rw [List.length_append, List.length_singleton]
    push_cast
    ring
  have heq : (((0 + ls.length : Nat) : Int)) - 1 = (((ls ++ [llast]).length : Nat) : Int) - 2 := by
    rw [hn]
    push_cast
    ring
  have hp : 0 ≤ (stepDecode labelScheme tokens
      (decodeLoop labelScheme tokens ⟨-1, "", []⟩ 0 ls) (0 + ls.length) llast).start := by
    rw [hstart]
    push_cast
    omega
  rw [decode_eq, decodeLoop_append_eq, if_pos hp, List.getLast?_concat, hstart, heq]

/-- C4 witness: the amended claim on labels [0] ++ [1] (length 2, ending on
"B-PER"): the trailing span has pos = [0, 1]. -/
theorem C4_trailing_span_witness :
    (decode ["O", "B-PER"] ["a", "b"] ([0] ++ [1])).getLast? =
      some { pos := ((([0] ++ [1] : List Nat).length : Int) - 2,
                     (([0] ++ [1] : List Nat).length : Int) - 1)
             entity := EntityText.lst (pySlice ["a", "b"]
               ((([0] ++ [1] : List Nat).length : Int) - 2)
               ((([0] ++ [1] : List Nat).length : Int) - 1))
             label := "" } :=
  C4_trailing_span ["O", "B-PER"] ["a", "b"] [0] 1 "PER" (by decide) (by decide)

/-- C5 counterexample: a trailing span's entity field is NOT a string — on
scheme ["O","B-PER","I-PER"], tokens ["ab","cd","ef"], labels [0,1,2] the
single emitted span has an unjoined list entity. -/
theorem C5_counterexample :
    (decode ["O", "B-PER", "I-PER"] ["ab", "cd", "ef"] [0, 1, 2]).map
      (fun e => e.entity.isStr) = [false] := by decide

/-- C5 (amended): every span emitted mid-scan carries entity = the
concatenated string of the tokens at indices pos[0]..pos[1]; the trailing
span instead carries the raw unjoined token list covering only
pos[0]..pos[1]-1 (one token short of its own pos range). -/
theorem C5_entity_forms (labelScheme tokens : List String) (labels : List Nat)
    (e : EntitySpan) (he : e ∈ decode labelScheme tokens labels) :
    e.entity = EntityText.str (String.join (pySlice tokens e.pos.1 (e.pos.2 + 1))) ∨
    e.entity = EntityText.lst (pySlice tokens e.pos.1 e.pos.2) := by
  obtain ⟨hpw, hbd, hcur, hent⟩ :=
    decodeLoop_scanInv labelScheme tokens labels ⟨-1, "", []⟩ 0 (scanInv_init tokens)
  rw [decode_eq] at he
  by_cases hs : 0 ≤ (decodeLoop labelScheme tokens ⟨-1, "", []⟩ 0 labels).start
  · rw [if_pos hs] at he
    rw [List.mem_append, List.mem_singleton] at he
    rcases he with he | he
    · exact Or.inl (hent e he)
    · subst he
      right
      simp only []
  · rw [if_neg hs] at he
    exact Or.inl (hent e he)

/-- C5 witness: the amended claim at the span emitted for
tokens ["ab","cd","ef"], labels [0,1,2]. -/
theorem C5_entity_forms_witness :
    (⟨(0, 2), EntityText.lst ["ab", "cd"], ""⟩ : EntitySpan).entity =
      EntityText.str (String.join (pySlice ["ab", "cd", "ef"]
        (⟨(0, 2), EntityText.lst ["ab", "cd"], ""⟩ : EntitySpan).pos.1
        ((⟨(0, 2), EntityText.lst ["ab", "cd"], ""⟩ : EntitySpan).pos.2 + 1))) ∨
    (⟨(0, 2), EntityText.lst ["ab", "cd"], ""⟩ : EntitySpan).entity =
      EntityText.lst (pySlice ["ab", "cd", "ef"]
        (⟨(0, 2), EntityText.lst ["ab", "cd"], ""⟩ : EntitySpan).pos.1
        (⟨(0, 2), EntityText.lst ["ab", "cd"], ""⟩ : EntitySpan).pos.2) :=
  C5_entity_forms ["O", "B-PER", "I-PER"] ["ab", "cd", "ef"] [0, 1, 2]
    ⟨(0, 2), EntityText.lst ["ab", "cd"], ""⟩ (by decide)

/-- C6 counterexample: the dump call passes ensure_ascii=True, under which
the non-ASCII character é is written escaped as \u00e9, not left
unescaped. -/
theorem C6_counterexample :
    (writeTestResults "out").ensureAscii = true ∧
    encodeBasestringAscii "é" = "\"\\u00e9\"" := by
  exact ⟨rfl, by decide⟩

/-- C6 (amended): the prediction output object is written via json.dump
with ensure_ascii=True — so every character of an encoded string value is
ASCII, i.e. non-ASCII characters are escaped, not left unescaped — to
os.path.join(output_dir, "test_results.json"), which for a nonempty
output_dir not ending in a separator is output_dir ++ "/test_results.json". -/
theorem C6_dump_call (output_dir s : String)
    (h1 : output_dir ≠ "") (h2 : ['/'].isSuffixOf output_dir.data = false) :
    (writeTestResults output_dir).path = output_dir ++ "/test_results.json" ∧
    (writeTestResults output_dir).ensureAscii = true ∧
    (encodeBasestringAscii s).data.all (fun c => decide (c.toNat < 128)) = true := by
  refine ⟨?_, rfl, ?_⟩
  · show osPathJoin output_dir "test_results.json" = _
    have hno : ¬ (output_dir = "" ∨ ['/'].isSuffixOf output_dir.data = true) := by
      rintro (h | h)
      · exact h1 h
      · rw [h2] at h
        exact Bool.false_ne_true h
    rw [osPathJoin, if_neg (by decide), if_neg hno, String.append_assoc]
    congr 1
  · rw [List.all_eq_true]
    intro x hx
    simpa using encodeBasestringAscii_ascii s x hx

/-- C6 witness: the amended claim at output_dir = "out" and the string "é". -/
theorem C6_dump_call_witness :
    (writeTestResults "out").path = "out" ++ "/test_results.json" ∧
    (writeTestResults "out").ensureAscii = true ∧
    (encodeBasestringAscii "é").data.all (fun c => decide (c.toNat < 128)) = true :=
  C6_dump_call "out" "é" (by decide) (by decide)

/-- C7 counterexample: the label "I-B-ORG" is an "I-<TYPE>" label (TYPE =
"B-ORG"), yet — because the scan tests substring containment of "B-", not
the prefix — it closes the open PER span at position 2 and opens a new
span there. -/
theorem C7_counterexample :
    ("I-B-ORG" = "I-" ++ "B-ORG") ∧
    decode ["O", "B-PER", "I-B-ORG"] ["a", "b", "c"] [0, 1, 2] =
      [⟨(0, 0), EntityText.str "a", "PER"⟩, ⟨(1, 2), EntityText.lst ["b"], ""⟩] := by
  exact ⟨rfl, by decide⟩

/-- C7 (amended): an "I-<TYPE>" label whose text does not contain the
substring "B-" (in particular any ordinary "I-ORG", "I-PER", ...) never
opens or closes a span on its own, regardless of the open span's type: the
scan state is left completely unchanged, so the token is folded into
whatever span is open. -/
theorem C7_inert_I_tag (labelScheme tokens : List String) (s : DecState) (i l : Nat)
    (t : String) (h : labelScheme.getD l "" = "I-" ++ t)
    (hB : strContains (labelScheme.getD l "") "B-" = false) :
    stepDecode labelScheme tokens s i l = s := by
  apply stepDecode_no_action labelScheme tokens s i l hB
  left
  rw [h]
  exact I_append_ne_O t

/-- C7 witness: "I-ORG" while a "PER" span is open at start = 0 leaves the
state unchanged. -/
theorem C7_inert_I_tag_witness :
    stepDecode ["O", "B-PER", "I-ORG"] ["a", "b", "c"] ⟨0, "PER", []⟩ 2 2 =
      ⟨0, "PER", []⟩ :=
  C7_inert_I_tag ["O", "B-PER", "I-ORG"] ["a", "b", "c"] ⟨0, "PER", []⟩ 2 2 "ORG"
    (by decide) (by decide)

/-- C8: an input whose every label maps to the literal "O" decodes to an
empty span list. -/
theorem C8_all_O_empty (labelScheme tokens : List String) (labels : List Nat)
    (h : ∀ l ∈ labels, labelScheme.getD l "" = "O") :
    decode labelScheme tokens labels = [] := by
  have hfr := decodeLoop_frozen labelScheme tokens labels ⟨-1, "", []⟩ 0 (by decide)
    (fun x hx => by rw [h x hx]; decide)
  rw [decode_eq, hfr, if_neg (by decide)]

/-- C8 witness: the all-"O" sequence [0, 0] decodes to []. -/
theorem C8_all_O_empty_witness :
    decode ["O", "B-PER"] ["a", "b"] [0, 0] = [] :=
  C8_all_O_empty ["O", "B-PER"] ["a", "b"] [0, 0] (by decide)

/-- C9: for every input, the emitted spans are strictly increasing in
pos[0] (the start index) in output order. -/
theorem C9_spans_strict_mono (labelScheme tokens : List String) (labels : List Nat) :
    (decode labelScheme tokens labels).Pairwise (fun a b => a.pos.1 < b.pos.1) := by
  obtain ⟨hpw, hbd, hcur, hent⟩ :=
    decodeLoop_scanInv labelScheme tokens labels ⟨-1, "", []⟩ 0 (scanInv_init tokens)
  rw [decode_eq]
  by_cases hs : 0 ≤ (decodeLoop labelScheme tokens ⟨-1, "", []⟩ 0 labels).start
  · rw [if_pos hs, List.pairwise_append]
    refine ⟨hpw, List.pairwise_singleton _ _, ?_⟩
    intro a ha b hb
    rw [List.mem_singleton] at hb
    subst hb
    simp only []
    exact (hcur hs).2 a ha
  · rw [if_neg hs]
    exact hpw

/-- C10 counterexample: with scheme ["O","B-PER","I-B-X"] and labels [1,2],
the first label "B-PER" begins with "B-" and no later label begins with
"B-" (the prefix of "I-B-X" is "I-"), yet the decoder emits a span —
"I-B-X" contains "B-" as a substring, so it re-opens the cursor. -/
theorem C10_counterexample :
    ("B-PER" = "B-" ++ "PER") ∧
    ("B-".data.isPrefixOf "I-B-X".data = false) ∧
    decode ["O", "B-PER", "I-B-X"] ["a", "b"] [1, 2] ≠ [] := by
  exact ⟨rfl, by decide, by decide⟩

/-- C10 (amended): a first label beginning with "B-" sets the cursor to the
sentinel -1, so that opening is lost; and if no later label CONTAINS the
substring "B-", the decoder emits no spans at all, however many "I-" or
"O" labels follow. -/
theorem C10_first_B_lost (labelScheme tokens : List String) (l0 : Nat) (rest : List Nat)
    (t : String) (h0 : labelScheme.getD l0 "" = "B-" ++ t)
    (hrest : ∀ l ∈ rest, strContains (labelScheme.getD l "") "B-" = false) :
    (stepDecode labelScheme tokens ⟨-1, "", []⟩ 0 l0).start = -1 ∧
    decode labelScheme tokens (l0 :: rest) = [] := by
  have hc : strContains (labelScheme.getD l0 "") "B-" = true := by
    rw [h0]
    exact strContains_B_append t
  have hm1 : (stepDecode labelScheme tokens ⟨-1, "", []⟩ 0 l0).start = -1 := by
    rw [(stepDecode_open_aux labelScheme tokens ⟨-1, "", []⟩ 0 l0 hc).1]
    decide
  refine ⟨hm1, ?_⟩
  have hfr := decodeLoop_frozen labelScheme tokens rest
    (stepDecode labelScheme tokens ⟨-1, "", []⟩ 0 l0) (0 + 1) (by rw [hm1]; decide) hrest
  rw [decode_eq, decodeLoop, hfr, if_neg (by rw [hm1]; decide),
    stepDecode_items_no_close labelScheme tokens ⟨-1, "", []⟩ 0 l0 (by decide)]

/-- C10 witness: the amended claim at scheme ["O","B-PER","I-PER"], labels
1 :: [2, 0]. -/
theorem C10_first_B_lost_witness :
    (stepDecode ["O", "B-PER", "I-PER"] ["a", "b", "c"] ⟨-1, "", []⟩ 0 1).start = -1 ∧
    decode ["O", "B-PER", "I-PER"] ["a", "b", "c"] (1 :: [2, 0]) = [] :=
  C10_first_B_lost ["O", "B-PER", "I-PER"] ["a", "b", "c"] 1 [2, 0] "PER"
    (by decide) (by decide)
